import Mathlib

/-!
Shallow embedding of the ranked-listing / like-toggle subsystem of the
`mirainoai/dreamcore_guide` forum (`src/app.py`, `src/db_config.py`).

The persistent store is a relational database; each table is embedded as a
`List` of rows in the order in which the store enumerates them.  A SQL
`ORDER BY` clause is embedded as a stable insertion sort (`sortLe`) over
that enumeration: rows that compare equal under the `ORDER BY` keys keep
the store's enumeration order, which SQL leaves unspecified — so the
enumeration order is an explicit input of every listing operation, and
"two runs over the same logical data" are two calls whose table lists are
permutations of each other.
-/

namespace Dreamcore

/-- Insert `x` into `l`, keeping `x` after every earlier element `y` with
`le x y = false` — the insertion step of a stable sort. -/
def insertLe {α : Type} (le : α → α → Bool) (x : α) : List α → List α
  | [] => [x]
  | y :: ys => if le x y then x :: y :: ys else y :: insertLe le x ys

/-- Stable insertion sort by a `Bool` comparator: elements that compare
equal (`le` holds both ways) keep their input order.  Models a SQL
`ORDER BY` applied to the store's row enumeration. -/
def sortLe {α : Type} (le : α → α → Bool) : List α → List α
  | [] => []
  | x :: xs => insertLe le x (sortLe le xs)

theorem insertLe_perm {α : Type} (le : α → α → Bool) (x : α) (l : List α) :
    (insertLe le x l).Perm (x :: l) := by
  induction l with
  | nil => exact List.Perm.refl _
  | cons y ys ih =>
    simp only [insertLe]
    by_cases h : le x y = true
    · rw [if_pos h]
    · rw [if_neg h]
      exact (ih.cons y).trans (List.Perm.swap x y ys)

theorem sortLe_perm {α : Type} (le : α → α → Bool) (l : List α) :
    (sortLe le l).Perm l := by
  induction l with
  | nil => exact List.Perm.refl _
  | cons x xs ih =>
    exact (insertLe_perm le x (sortLe le xs)).trans (ih.cons x)

theorem mem_insertLe {α : Type} {le : α → α → Bool} {x z : α} {l : List α}
    (h : z ∈ insertLe le x l) : z = x ∨ z ∈ l := by
  have := (insertLe_perm le x l).mem_iff.mp h
  simpa using this

theorem insertLe_pairwise {α : Type} {le : α → α → Bool}
    (htot : ∀ a b, le a b = true ∨ le b a = true)
    (htrans : ∀ a b c, le a b = true → le b c = true → le a c = true)
    (x : α) {l : List α} (h : l.Pairwise (fun a b => le a b = true)) :
    (insertLe le x l).Pairwise (fun a b => le a b = true) := by
  induction l with
  | nil => simp [insertLe]
  | cons y ys ih =>
    rcases List.pairwise_cons.mp h with ⟨hy, hys⟩
    simp only [insertLe]
    by_cases hxy : le x y = true
    · rw [if_pos hxy]
      refine List.pairwise_cons.mpr ⟨?_, h⟩
      intro z hz
      rcases List.mem_cons.mp hz with hz | hz
      · exact hz ▸ hxy
      · exact htrans x y z hxy (hy z hz)
    · rw [if_neg hxy]
      refine List.pairwise_cons.mpr ⟨?_, ih hys⟩
      intro z hz
      rcases mem_insertLe hz with hz | hz
      · rcases htot x y with hx | hx
        · exact absurd hx hxy
        · rw [hz]
          exact hx
      · exact hy z hz

theorem sortLe_pairwise {α : Type} (le : α → α → Bool)
    (htot : ∀ a b, le a b = true ∨ le b a = true)
    (htrans : ∀ a b c, le a b = true → le b c = true → le a c = true)
    (l : List α) : (sortLe le l).Pairwise (fun a b => le a b = true) := by
  induction l with
  | nil => simp [sortLe]
  | cons x xs ih => exact insertLe_pairwise htot htrans x ih

/-! ## Data model

One structure per table of `src/db_config.py` (`users`, `games`, `posts`,
`likes`); `id` columns are `SERIAL` primary keys, `created_at` timestamps
are embedded as `Nat`.  `title` is a `List Char` because the search code
works character-wise on it. -/

structure UserRow where
  id : Nat
  username : String
  password_hash : String
  created_at : Nat
deriving DecidableEq, Repr

structure Game where
  id : Nat
  title : List Char
  user_id : Nat
  game_url : Option String
  created_at : Nat
deriving DecidableEq, Repr

structure Post where
  id : Nat
  game_id : Nat
  user_id : Nat
  content : String
  media_url : Option String
  created_at : Nat
deriving DecidableEq, Repr

structure Like where
  id : Nat
  post_id : Nat
  user_id : Nat
  created_at : Nat
deriving DecidableEq, Repr

/-- The database: each table as the list of its rows, in the store's
enumeration order. -/
structure Store where
  users : List UserRow
  games : List Game
  posts : List Post
  likes : List Like
deriving DecidableEq, Repr

/-! ## Thread listing (`index` in `src/app.py`) -/

/-- `ORDER BY created_at DESC` as a non-strict comparator on games. -/
def gameNewLe (a b : Game) : Bool :=
  decide (b.created_at ≤ a.created_at)

/-- `sort=new` (the default): `SELECT ... FROM games ORDER BY created_at
DESC`. -/
def listGamesNew (s : Store) : List Game :=
  sortLe gameNewLe s.games

/-- `COUNT(posts.id)` of the `LEFT JOIN posts ON games.id = posts.game_id
... GROUP BY games.id` aggregation: the number of posts in thread `gid`
(0 when the left join matches nothing). -/
def postCount (posts : List Post) (gid : Nat) : Nat :=
  (posts.filter (fun p => decide (p.game_id = gid))).length

/-- A row of the `sort=comments` query: the game columns plus
`post_count`. -/
structure GameRow where
  game : Game
  post_count : Nat
deriving DecidableEq, Repr

/-- `ORDER BY post_count DESC, games.created_at DESC` as a non-strict
comparator. -/
def commentsLe (a b : GameRow) : Bool :=
  decide (b.post_count < a.post_count ∨
    (a.post_count = b.post_count ∧ b.game.created_at ≤ a.game.created_at))

/-- `sort=comments`: games left-joined with their post count, ordered by
`post_count DESC, games.created_at DESC`. -/
def listGamesComments (s : Store) : List GameRow :=
  sortLe commentsLe (s.games.map (fun g => ⟨g, postCount s.posts g.id⟩))

/-! ## Fuzzy search (`index`'s `search_query` filter)

`src/app.py` calls `fuzz.partial_ratio(search_query.lower(),
game['title'].lower()) >= 75` from the external `thefuzz` library, which
is not part of this repository. -/

/-- `str.lower()` on a character list (ASCII case fold, which covers every
title the code compares). -/
def lowerStr (cs : List Char) : List Char := cs.map Char.toLower

/-- Helper for `lcsLen`: the inner structural recursion on the second
string, with `f` the outer recursion already applied to the tail of the
first. -/
def lcsInner (a : Char) (f : List Char → Nat) : List Char → Nat
  | [] => 0
  | b :: bs => if a = b then f bs + 1 else max (lcsInner a f bs) (f (b :: bs))

/-- Length of a longest common subsequence of two character lists. -/
def lcsLen : List Char → List Char → Nat
  | [] => fun _ => 0
  | a :: as => lcsInner a (lcsLen as)

/-- Modelled from the spec: the similarity score of one contiguous
alignment, "scored 0-100" — the standard ratio `200 * (matched
characters) / (total length)`, with matching by longest common
subsequence. -/
def simScore (a b : List Char) : Nat :=
  if a.length + b.length = 0 then 100 else 200 * lcsLen a b / (a.length + b.length)

/-- Every contiguous substring of `t` of length `n` — the candidate
alignments of the shorter string within the longer. -/
def windows (n : Nat) (t : List Char) : List (List Char) :=
  (List.range (t.length - n + 1)).map (fun i => (t.drop i).take n)

/-- Modelled from the spec: `thefuzz`'s `fuzz.partial_ratio` is not part of
the repository; the spec defines it as "the best-matching contiguous
alignment of the shorter string within the longer, scored 0-100". -/
def partial_ratio (s t : List Char) : Nat :=
  if s.length ≤ t.length then
    ((windows s.length t).map (simScore s)).foldr max 0
  else
    ((windows t.length s).map (simScore t)).foldr max 0

/-- Whether a thread title passes the search filter:
`fuzz.partial_ratio(search_query.lower(), game['title'].lower()) >= 75`. -/
def titleMatches (q title : List Char) : Bool :=
  decide (75 ≤ partial_ratio (lowerStr q) (lowerStr title))

/-- The `index` page body for `sort=new`: fetch `listGamesNew`, then — only
when `search_query` is non-empty — keep the games whose title fuzzy-matches,
in the fetched order (the code appends matches to `search_results` in a
single pass over `all_games`). -/
def index_new (s : Store) (q : List Char) : List Game :=
  let all := listGamesNew s
  if q = [] then all else all.filter (fun g => titleMatches q g.title)

/-- The `index` page body for `sort=comments`, with the same search
filter. -/
def index_comments (s : Store) (q : List Char) : List GameRow :=
  let all := listGamesComments s
  if q = [] then all else all.filter (fun r => titleMatches q r.game.title)

/-! ## Thread page (`game_thread` in `src/app.py`, GET side)

The posts query joins `users`, left-joins and groups over `likes` for
`like_count`, computes `ROW_NUMBER() OVER (PARTITION BY posts.game_id
ORDER BY posts.created_at)` and finally orders by the chosen sort.  The
window function runs over the grouped rows before the outer `ORDER BY`,
with ties among equal `created_at` left to the store's enumeration
order. -/

/-- A row of the posts query, after grouping: the selected post columns,
`users.username`, `COUNT(likes.id) AS like_count` and
`ROW_NUMBER(...) AS post_number`.  `is_liked` is the key the handler adds
to the row dict afterwards — `none` models the key being absent. -/
structure PostRow where
  id : Nat
  content : String
  created_at : Nat
  user_id : Nat
  media_url : Option String
  username : String
  like_count : Nat
  post_number : Nat
  is_liked : Option Bool
deriving DecidableEq, Repr

/-- `JOIN users ON posts.user_id = users.id`: pair a post with its user,
or drop the row when no user matches. -/
def joinUser (users : List UserRow) (p : Post) : Option (Post × UserRow) :=
  (users.find? (fun u => decide (u.id = p.user_id))).map (fun u => (p, u))

/-- The grouped rows of the posts query for thread `gid`:
`WHERE posts.game_id = %s` then the inner join with `users`. -/
def gameRows (s : Store) (gid : Nat) : List (Post × UserRow) :=
  (s.posts.filter (fun p => decide (p.game_id = gid))).filterMap (joinUser s.users)

/-- `COUNT(likes.id)` of the grouped `LEFT JOIN likes ON posts.id =
likes.post_id`: the number of likes of post `pid`. -/
def likeCount (likes : List Like) (pid : Nat) : Nat :=
  (likes.filter (fun l => decide (l.post_id = pid))).length

/-- The window clause's `ORDER BY posts.created_at` as a non-strict
comparator on the grouped rows. -/
def chronoLe (a b : Post × UserRow) : Bool :=
  decide (a.1.created_at ≤ b.1.created_at)

/-- Assemble one selected row, with `post_number := n` and the `is_liked`
key not yet set. -/
def mkRow (s : Store) (n : Nat) (pu : Post × UserRow) : PostRow :=
  ⟨pu.1.id, pu.1.content, pu.1.created_at, pu.1.user_id, pu.1.media_url,
    pu.2.username, likeCount s.likes pu.1.id, n, none⟩

/-- Number a list of grouped rows `n, n+1, ...` in order — the
`ROW_NUMBER()` assignment applied to rows already arranged by the window's
`ORDER BY`. -/
def numberFrom (s : Store) (n : Nat) : List (Post × UserRow) → List PostRow
  | [] => []
  | pu :: rest => mkRow s n pu :: numberFrom s (n + 1) rest

/-- The selected rows of the posts query with their `post_number`:
`ROW_NUMBER() OVER (PARTITION BY posts.game_id ORDER BY posts.created_at)`
over the grouped rows of thread `gid`. -/
def numberedRows (s : Store) (gid : Nat) : List PostRow :=
  numberFrom s 1 (sortLe chronoLe (gameRows s gid))

/-- The `post_sort` request argument: `likes` or anything else (`new`). -/
inductive PostSort
  | new
  | likes
deriving DecidableEq, Repr

/-- The outer `ORDER BY` of the posts query: `posts.created_at ASC` for
`new`, `like_count DESC, posts.created_at DESC` for `likes`. -/
def postLe : PostSort → PostRow → PostRow → Bool
  | PostSort.new, a, b => decide (a.created_at ≤ b.created_at)
  | PostSort.likes, a, b =>
    decide (b.like_count < a.like_count ∨
      (a.like_count = b.like_count ∧ b.created_at ≤ a.created_at))

/-- The like row predicate used by the toggle's `SELECT`, `DELETE` and the
uniqueness constraint: `post_id = %s AND user_id = %s`. -/
def likeMatch (pid uid : Nat) (l : Like) : Bool :=
  decide (l.post_id = pid ∧ l.user_id = uid)

/-- The per-post check the handler runs for a logged-in viewer:
`SELECT COUNT(*) FROM likes WHERE post_id = %s AND user_id = %s`, then
`> 0`. -/
def likedFlag (s : Store) (uid pid : Nat) : Bool :=
  decide (0 < s.likes.countP (likeMatch pid uid))

/-- The handler's `is_liked` pass: only when `'user_id' in session` does it
set `post['is_liked']` on each fetched row; otherwise the rows are returned
with the key absent. -/
def annotRows (s : Store) (viewer : Option Nat) (rows : List PostRow) : List PostRow :=
  match viewer with
  | none => rows
  | some uid => rows.map (fun r => { r with is_liked := some (likedFlag s uid r.id) })

/-- The post listing `game_thread` renders: grouped, numbered rows, sorted
by the requested mode, with the viewer's `is_liked` pass applied. -/
def game_thread_posts (s : Store) (gid : Nat) (mode : PostSort)
    (viewer : Option Nat) : List PostRow :=
  annotRows s viewer (sortLe (postLe mode) (numberedRows s gid))

/-- `game_thread` (GET): `none` when the game id does not exist (the code
redirects to the index page), else the game row and its post listing. -/
def game_thread (s : Store) (gid : Nat) (mode : PostSort)
    (viewer : Option Nat) : Option (Game × List PostRow) :=
  match s.games.find? (fun g => decide (g.id = gid)) with
  | none => none
  | some g => some (g, game_thread_posts s gid mode viewer)

/-- The Like Ledger read `isLikedBy`: does a like row for `(pid, uid)`
exist. -/
def isLikedBy (s : Store) (pid uid : Nat) : Bool :=
  s.likes.any (likeMatch pid uid)

/-! ## Like toggle (`like_post` in `src/app.py`) -/

/-- What `like_post` sends back. -/
inductive LikeResponse
  /-- `redirect(url_for('index'))`: no `user_id` in the session. -/
  | redirectIndex
  /-- `redirect(referer)` / `redirect(url_for('index'))` after a committed
  toggle. -/
  | back
  /-- The page `f"Error processing like: {e}"` returned from the `except`
  branch. -/
  | errorPage
deriving DecidableEq, Repr

/-- `like_post(post_id)`: check the session, `SELECT` the existing like,
then `DELETE` it or `INSERT` a new one and commit.  `newId`/`now` are the
`SERIAL` id and `CURRENT_TIMESTAMP` of an inserted row.  `race = true`
models a concurrent toggle by the same `(post_id, user_id)` committing its
`INSERT` between this request's `SELECT` and `INSERT`: the duplicate
`INSERT` then violates `UNIQUE (post_id, user_id)`, the `except` branch
rolls this transaction back and returns the error page, and the concurrent
transaction's row (carrying `newId`/`now` here; no claim observes them) is
what remains. -/
def like_post (s : Store) (pid : Nat) (sessionUser : Option Nat)
    (newId now : Nat) (race : Bool) : LikeResponse × Store :=
  match sessionUser with
  | none => (LikeResponse.redirectIndex, s)
  | some uid =>
    if s.likes.any (likeMatch pid uid) then
      (LikeResponse.back,
        { s with likes := s.likes.filter (fun l => !likeMatch pid uid l) })
    else if race then
      (LikeResponse.errorPage,
        { s with likes := s.likes ++ [⟨newId, pid, uid, now⟩] })
    else
      (LikeResponse.back,
        { s with likes := s.likes ++ [⟨newId, pid, uid, now⟩] })

/-- `n` successive toggles of `(pid, uid)` with no interference (sequential
runs of `like_post`; the k-th inserted row, if any, gets id `k`). -/
def toggleIter (pid uid now : Nat) : Nat → Store → Store
  | 0, s => s
  | n + 1, s => (like_post (toggleIter pid uid now n s) pid (some uid) n now false).2

/-! ## Deletes (`delete_post`, `delete_thread` in `src/app.py`) -/

/-- What the delete handlers send back.  The code only ever redirects; the
`forbidden` and `notFound` values are the typed errors the spec's taxonomy
expects and are produced by no operation here. -/
inductive DeleteResponse
  | redirectIndex
  | redirectThread (gid : Nat)
  | forbidden
  | notFound
deriving DecidableEq, Repr

/-- `delete_post(post_id)`: look the post up; only when it exists and the
session user owns it, delete it (its likes go with it via
`ON DELETE CASCADE`) and redirect to its thread.  In every other case —
no session, no such post, or a different owner — fall through to
`redirect(url_for('index'))` with nothing deleted.  (The handler also
removes the post's media file; that is a filesystem effect outside the
store.) -/
def delete_post (s : Store) (pid : Nat) (sessionUser : Option Nat) :
    DeleteResponse × Store :=
  match sessionUser with
  | none => (DeleteResponse.redirectIndex, s)
  | some uid =>
    match s.posts.find? (fun p => decide (p.id = pid)) with
    | none => (DeleteResponse.redirectIndex, s)
    | some p =>
      if p.user_id = uid then
        (DeleteResponse.redirectThread p.game_id,
          { s with
            posts := s.posts.filter (fun q => !decide (q.id = pid)),
            likes := s.likes.filter (fun l => !decide (l.post_id = pid)) })
      else (DeleteResponse.redirectIndex, s)

/-- `delete_thread(game_id)`: look the game up; only when it exists and the
session user owns it, delete it — its posts and their likes cascade.  In
every other case, `redirect(url_for('index'))` with nothing deleted. -/
def delete_thread (s : Store) (gid : Nat) (sessionUser : Option Nat) :
    DeleteResponse × Store :=
  match sessionUser with
  | none => (DeleteResponse.redirectIndex, s)
  | some uid =>
    match s.games.find? (fun g => decide (g.id = gid)) with
    | none => (DeleteResponse.redirectIndex, s)
    | some g =>
      if g.user_id = uid then
        (DeleteResponse.redirectIndex,
          { s with
            games := s.games.filter (fun h => !decide (h.id = gid)),
            posts := s.posts.filter (fun p => !decide (p.game_id = gid)),
            likes := s.likes.filter
              (fun l => !s.posts.any (fun p => decide (p.game_id = gid ∧ p.id = l.post_id))) })
      else (DeleteResponse.redirectIndex, s)

/-! ## Creation handlers (state effect only) -/

/-- `register`: insert the user unless the username is taken. -/
def register_user (s : Store) (username password_hash : String)
    (newId now : Nat) : Store :=
  if s.users.any (fun u => decide (u.username = username)) then s
  else { s with users := s.users ++ [⟨newId, username, password_hash, now⟩] }

/-- `create_thread` (and the equivalent POST branch of `index`): an
authenticated user inserts a game when `game_title` is non-empty. -/
def create_thread (s : Store) (sessionUser : Option Nat) (title : List Char)
    (url : Option String) (newId now : Nat) : Store :=
  match sessionUser with
  | none => s
  | some uid =>
    if title = [] then s
    else { s with games := s.games ++ [⟨newId, title, uid, url, now⟩] }

/-- The POST branch of `game_thread`: an authenticated user inserts a post
when `content or media_url` is truthy. -/
def create_post (s : Store) (gid : Nat) (sessionUser : Option Nat)
    (content : String) (media : Option String) (newId now : Nat) : Store :=
  match sessionUser with
  | none => s
  | some uid =>
    if content = "" ∧ media = none then s
    else { s with posts := s.posts ++ [⟨newId, gid, uid, content, media, now⟩] }

/-! ## Reachable store states -/

/-- The states the persistent store can reach from an empty database by
the embedded operations, each step taken with arbitrary arguments
(including a raced like toggle). -/
inductive Reachable : Store → Prop
  | init : Reachable ⟨[], [], [], []⟩
  | register (s : Store) (username password_hash : String) (newId now : Nat) :
      Reachable s → Reachable (register_user s username password_hash newId now)
  | newThread (s : Store) (u : Option Nat) (title : List Char)
      (url : Option String) (newId now : Nat) :
      Reachable s → Reachable (create_thread s u title url newId now)
  | newPost (s : Store) (gid : Nat) (u : Option Nat) (content : String)
      (media : Option String) (newId now : Nat) :
      Reachable s → Reachable (create_post s gid u content media newId now)
  | toggle (s : Store) (pid : Nat) (u : Option Nat) (newId now : Nat) (race : Bool) :
      Reachable s → Reachable (like_post s pid u newId now race).2
  | dropPost (s : Store) (pid : Nat) (u : Option Nat) :
      Reachable s → Reachable (delete_post s pid u).2
  | dropThread (s : Store) (gid : Nat) (u : Option Nat) :
      Reachable s → Reachable (delete_thread s gid u).2

/-- At most one like row per `(post_id, user_id)` pair — the property the
`UNIQUE (post_id, user_id)` constraint of `create_likes_table` states. -/
def UniqueLikes (s : Store) : Prop :=
  s.likes.Pairwise (fun a b => ¬(a.post_id = b.post_id ∧ a.user_id = b.user_id))

/-! ## Comparator facts -/

theorem gameNewLe_total (a b : Game) : gameNewLe a b = true ∨ gameNewLe b a = true := by
  simp only [gameNewLe, decide_eq_true_eq]
  omega

theorem gameNewLe_trans (a b c : Game) :
    gameNewLe a b = true → gameNewLe b c = true → gameNewLe a c = true := by
  simp only [gameNewLe, decide_eq_true_eq]
  omega

theorem commentsLe_total (a b : GameRow) : commentsLe a b = true ∨ commentsLe b a = true := by
  simp only [commentsLe, decide_eq_true_eq]
  omega

theorem commentsLe_trans (a b c : GameRow) :
    commentsLe a b = true → commentsLe b c = true → commentsLe a c = true := by
  simp only [commentsLe, decide_eq_true_eq]
  omega

theorem chronoLe_total (a b : Post × UserRow) : chronoLe a b = true ∨ chronoLe b a = true := by
  simp only [chronoLe, decide_eq_true_eq]
  omega

theorem chronoLe_trans (a b c : Post × UserRow) :
    chronoLe a b = true → chronoLe b c = true → chronoLe a c = true := by
  simp only [chronoLe, decide_eq_true_eq]
  omega

theorem postLe_total (m : PostSort) (a b : PostRow) :
    postLe m a b = true ∨ postLe m b a = true := by
  cases m <;> simp only [postLe, decide_eq_true_eq] <;> omega

theorem postLe_trans (m : PostSort) (a b c : PostRow) :
    postLe m a b = true → postLe m b c = true → postLe m a c = true := by
  cases m <;> simp only [postLe, decide_eq_true_eq] <;> omega

/-! ## Row-pipeline helpers -/

theorem annotRows_pairwise (s : Store) (viewer : Option Nat) (rows : List PostRow)
    {R : PostRow → PostRow → Prop}
    (hR : ∀ (a b : PostRow) (x y : Option Bool),
      R a b → R { a with is_liked := x } { b with is_liked := y })
    (h : rows.Pairwise R) : (annotRows s viewer rows).Pairwise R := by
  cases viewer with
  | none => exact h
  | some uid =>
    exact List.pairwise_map.mpr (h.imp (fun hab => hR _ _ _ _ hab))

theorem annotRows_perm (s : Store) (viewer : Option Nat) {rows rows' : List PostRow}
    (h : rows.Perm rows') : (annotRows s viewer rows).Perm (annotRows s viewer rows') := by
  cases viewer with
  | none => exact h
  | some uid => exact h.map _

theorem annotRows_fields (s : Store) (viewer : Option Nat) (rows : List PostRow) :
    ∀ r ∈ annotRows s viewer rows, ∃ r0 ∈ rows,
      r.id = r0.id ∧ r.created_at = r0.created_at ∧
      r.like_count = r0.like_count ∧ r.post_number = r0.post_number := by
  intro r hr
  cases viewer with
  | none => exact ⟨r, hr, rfl, rfl, rfl, rfl⟩
  | some uid =>
    rcases List.mem_map.mp hr with ⟨r0, hr0, hr0e⟩
    exact ⟨r0, hr0, by rw [← hr0e], by rw [← hr0e], by rw [← hr0e], by rw [← hr0e]⟩

/-- C6: `listPosts` (the post listing of `game_thread`) is ordered by
`createdAt` ascending in `recent` (`new`) mode, and in `mostLiked`
(`likes`) mode by `likeCount` descending with ties among equal like counts
broken by `createdAt` descending; in both modes it lists exactly the
thread's (grouped, numbered, viewer-annotated) rows. -/
theorem listPosts_order (s : Store) (gid : Nat) (viewer : Option Nat) :
    (game_thread_posts s gid PostSort.new viewer).Pairwise
      (fun a b => a.created_at ≤ b.created_at) ∧
    (game_thread_posts s gid PostSort.likes viewer).Pairwise
      (fun a b => b.like_count < a.like_count ∨
        (a.like_count = b.like_count ∧ b.created_at ≤ a.created_at)) ∧
    (∀ m, (game_thread_posts s gid m viewer).Perm
      (annotRows s viewer (numberedRows s gid))) := by
  refine ⟨?_, ?_, ?_⟩
  · exact annotRows_pairwise s viewer _ (fun a b x y hab => hab)
      (((sortLe_pairwise (postLe PostSort.new) (postLe_total _) (postLe_trans _)
        (numberedRows s gid)).imp (fun h => of_decide_eq_true h)))
  · exact annotRows_pairwise s viewer _ (fun a b x y hab => hab)
      (((sortLe_pairwise (postLe PostSort.likes) (postLe_total _) (postLe_trans _)
        (numberedRows s gid)).imp (fun h => of_decide_eq_true h)))
  · intro m
    exact annotRows_perm s viewer (sortLe_perm (postLe m) (numberedRows s gid))

/-- C10: `listThreads` in `mostCommented` (`sort=comments`) mode lists
every thread — the projection to games is a permutation of the games
table, and a thread with zero posts appears as a row with `post_count = 0`
— and any two rows with equal post counts (in particular two zero-post
threads) stand in `createdAt`-descending order. -/
theorem listThreads_mostCommented_total (s : Store) :
    ((listGamesComments s).map (fun r => r.game)).Perm s.games ∧
    (∀ g ∈ s.games, postCount s.posts g.id = 0 →
      (⟨g, 0⟩ : GameRow) ∈ listGamesComments s) ∧
    (listGamesComments s).Pairwise
      (fun a b => a.post_count = b.post_count → b.game.created_at ≤ a.game.created_at) := by
  refine ⟨?_, ?_, ?_⟩
  · have h := (sortLe_perm commentsLe
      (s.games.map (fun g => ⟨g, postCount s.posts g.id⟩))).map (fun r : GameRow => r.game)
    refine h.trans ?_
    simp [Function.comp_def]
  · intro g hg h0
    have hmem : (⟨g, postCount s.posts g.id⟩ : GameRow) ∈
        s.games.map (fun g => (⟨g, postCount s.posts g.id⟩ : GameRow)) :=
      List.mem_map.mpr ⟨g, hg, rfl⟩
    rw [h0] at hmem
    exact ((sortLe_perm commentsLe _).mem_iff).mpr hmem
  · refine (sortLe_pairwise commentsLe commentsLe_total commentsLe_trans _).imp ?_
    intro a b hab heq
    rcases of_decide_eq_true hab with hlt | ⟨_, hle⟩
    · omega
    · exact hle

/-! ## Like-toggle facts -/

theorem any_filter_not {α : Type} (p : α → Bool) (l : List α) :
    (l.filter (fun a => !p a)).any p = false := by
  induction l with
  | nil => rfl
  | cons a as ih =>
    by_cases h : p a = true
    · simp [List.filter_cons, h, ih]
    · simp [List.filter_cons, h, ih]

theorem likeMatch_new (pid uid newId now : Nat) :
    likeMatch pid uid ⟨newId, pid, uid, now⟩ = true := by
  simp [likeMatch]

theorem isLikedBy_eq_any (s : Store) (pid uid : Nat) :
    isLikedBy s pid uid = s.likes.any (likeMatch pid uid) := rfl

/-- One sequential toggle flips the pair's like state. -/
theorem isLikedBy_toggle (s : Store) (pid uid newId now : Nat) :
    isLikedBy (like_post s pid (some uid) newId now false).2 pid uid
      = !isLikedBy s pid uid := by
  rw [isLikedBy_eq_any, isLikedBy_eq_any]
  by_cases h : s.likes.any (likeMatch pid uid) = true
  · simp only [like_post, h, if_true]
    rw [any_filter_not]
    decide
  · have hf : s.likes.any (likeMatch pid uid) = false := by simpa using h
    simp only [like_post, hf, Bool.false_eq_true, if_false]
    rw [List.any_append, hf]
    simp [likeMatch_new]

theorem toggleIter_parity (pid uid now : Nat) (s : Store)
    (h : isLikedBy s pid uid = false) (n : Nat) :
    isLikedBy (toggleIter pid uid now n s) pid uid = decide (n % 2 = 1) := by
  induction n with
  | zero => simpa using h
  | succ n ih =>
    have := isLikedBy_toggle (toggleIter pid uid now n s) pid uid n now
    rw [toggleIter, this, ih]
    rcases Nat.mod_two_eq_zero_or_one n with h2 | h2 <;>
      simp [Nat.add_mod, h2]

/-- C4: `toggleLike(postId, userId)` — the `like_post` handler with an
authenticated session and no interference — removes the pair's like and
leaves `isLikedBy` false when a like exists, inserts one and leaves
`isLikedBy` true otherwise (in both cases responding with a redirect, not
an error); consequently, from a `liked = false` baseline, `n` successive
toggles leave `isLikedBy` true exactly when `n` is odd. -/
theorem toggle_like_spec (s : Store) (pid uid newId now : Nat) :
    (isLikedBy s pid uid = true →
      like_post s pid (some uid) newId now false =
        (LikeResponse.back,
          { s with likes := s.likes.filter (fun l => !likeMatch pid uid l) }) ∧
      isLikedBy (like_post s pid (some uid) newId now false).2 pid uid = false) ∧
    (isLikedBy s pid uid = false →
      like_post s pid (some uid) newId now false =
        (LikeResponse.back, { s with likes := s.likes ++ [⟨newId, pid, uid, now⟩] }) ∧
      isLikedBy (like_post s pid (some uid) newId now false).2 pid uid = true) ∧
    (isLikedBy s pid uid = false → ∀ n,
      isLikedBy (toggleIter pid uid now n s) pid uid = decide (n % 2 = 1)) := by
  refine ⟨fun h => ⟨?_, ?_⟩, fun h => ⟨?_, ?_⟩, fun h n => toggleIter_parity pid uid now s h n⟩
  · rw [isLikedBy_eq_any] at h
    simp [like_post, h]
  · rw [isLikedBy_toggle, h]
    rfl
  · rw [isLikedBy_eq_any] at h
    simp [like_post, h]
  · rw [isLikedBy_toggle, h]
    rfl

/-- Closed witness for `toggle_like_spec`: a store where user 1 has not
liked post 1, toggled three times. -/
theorem toggle_like_spec_witness :
    isLikedBy
      (toggleIter 1 1 6 3 ⟨[⟨1, "b", "h", 0⟩], [⟨1, ['g'], 1, none, 1⟩],
        [⟨1, 1, 1, "hi", none, 2⟩], []⟩) 1 1 = decide (3 % 2 = 1) :=
  (toggle_like_spec ⟨[⟨1, "b", "h", 0⟩], [⟨1, ['g'], 1, none, 1⟩],
    [⟨1, 1, 1, "hi", none, 2⟩], []⟩ 1 1 0 6).2.2 (by decide) 3

/-! ## The uniqueness invariant -/

theorem uniqueLikes_filter (s : Store) (p : Like → Bool) (h : UniqueLikes s) :
    (s.likes.filter p).Pairwise
      (fun a b => ¬(a.post_id = b.post_id ∧ a.user_id = b.user_id)) :=
  List.Pairwise.sublist (List.filter_sublist s.likes) h

theorem uniqueLikes_insert (s : Store) (pid uid newId now : Nat)
    (hnone : s.likes.any (likeMatch pid uid) = false) (h : UniqueLikes s) :
    (s.likes ++ [(⟨newId, pid, uid, now⟩ : Like)]).Pairwise
      (fun a b => ¬(a.post_id = b.post_id ∧ a.user_id = b.user_id)) := by
  rw [List.pairwise_append]
  refine ⟨h, List.pairwise_singleton _ _, ?_⟩
  intro a ha b hb
  have hb' : b = (⟨newId, pid, uid, now⟩ : Like) := by simpa using hb
  have hm := List.any_eq_false.mp hnone a ha
  subst hb'
  simp only [likeMatch, decide_eq_true_eq] at hm
  simpa using hm

theorem register_user_likes (s : Store) (un ph : String) (ni no : Nat) :
    (register_user s un ph ni no).likes = s.likes := by
  simp only [register_user]
  split <;> rfl

theorem create_thread_likes (s : Store) (u : Option Nat) (t : List Char)
    (url : Option String) (ni no : Nat) :
    (create_thread s u t url ni no).likes = s.likes := by
  cases u with
  | none => rfl
  | some uid =>
    simp only [create_thread]
    split <;> rfl

theorem create_post_likes (s : Store) (gid : Nat) (u : Option Nat) (c : String)
    (m : Option String) (ni no : Nat) :
    (create_post s gid u c m ni no).likes = s.likes := by
  cases u with
  | none => rfl
  | some uid =>
    simp only [create_post]
    split <;> rfl

/-- C5: in every reachable store state at most one like row exists per
`(post_id, user_id)` pair, and every embedded operation — in particular
the like toggle, raced or not — preserves this. -/
theorem reachable_uniqueLikes (s : Store) (h : Reachable s) : UniqueLikes s := by
  induction h with
  | init => simp [UniqueLikes]
  | register s un ph ni no _ ih =>
    unfold UniqueLikes
    rw [register_user_likes]
    exact ih
  | newThread s u title url ni no _ ih =>
    unfold UniqueLikes
    rw [create_thread_likes]
    exact ih
  | newPost s gid u content media ni no _ ih =>
    unfold UniqueLikes
    rw [create_post_likes]
    exact ih
  | toggle s pid u ni no race _ ih =>
    unfold UniqueLikes
    cases u with
    | none => exact ih
    | some uid =>
      by_cases hx : s.likes.any (likeMatch pid uid) = true
      · simp only [like_post, hx, if_true]
        exact uniqueLikes_filter s _ ih
      · have hf : s.likes.any (likeMatch pid uid) = false := by simpa using hx
        cases race <;> simp only [like_post, hf, Bool.false_eq_true, if_false, if_true] <;>
          exact uniqueLikes_insert s pid uid ni no hf ih
  | dropPost s pid u _ ih =>
    unfold UniqueLikes
    cases u with
    | none => exact ih
    | some uid =>
      cases hfind : s.posts.find? (fun p => decide (p.id = pid)) with
      | none => simp only [delete_post, hfind]; exact ih
      | some p =>
        by_cases howner : p.user_id = uid
        · simp only [delete_post, hfind, howner, if_true]
          exact uniqueLikes_filter s _ ih
        · simp only [delete_post, hfind, howner, if_false]
          exact ih
  | dropThread s gid u _ ih =>
    unfold UniqueLikes
    cases u with
    | none => exact ih
    | some uid =>
      cases hfind : s.games.find? (fun g => decide (g.id = gid)) with
      | none => simp only [delete_thread, hfind]; exact ih
      | some g =>
        by_cases howner : g.user_id = uid
        · simp only [delete_thread, hfind, howner, if_true]
          exact uniqueLikes_filter s _ ih
        · simp only [delete_thread, hfind, howner, if_false]
          exact ih

/-- Closed witness for `reachable_uniqueLikes`: the empty store after a
registration, a thread, a post and one like toggle. -/
theorem reachable_uniqueLikes_witness :
    UniqueLikes (like_post (create_post (create_thread (register_user
      ⟨[], [], [], []⟩ "b" "h" 1 0) (some 1) ['g'] none 1 1) 1 (some 1)
      "hi" none 1 2) 1 (some 1) 1 3 false).2 :=
  reachable_uniqueLikes _
    (Reachable.toggle _ 1 (some 1) 1 3 false
      (Reachable.newPost _ 1 (some 1) "hi" none 1 2
        (Reachable.newThread _ (some 1) ['g'] none 1 1
          (Reachable.register _ "b" "h" 1 0 Reachable.init))))

/-! ## The viewer's like flags (C8) -/

theorem numberFrom_is_liked (s : Store) (l : List (Post × UserRow)) :
    ∀ (n : Nat), ∀ r ∈ numberFrom s n l, r.is_liked = none := by
  induction l with
  | nil =>
    intro n r hr
    simp [numberFrom] at hr
  | cons pu rest ih =>
    intro n r hr
    simp only [numberFrom] at hr
    rcases List.mem_cons.mp hr with h | h
    · rw [h]
      rfl
    · exact ih (n + 1) r h

theorem likedFlag_eq_isLikedBy (s : Store) (uid pid : Nat) :
    likedFlag s uid pid = isLikedBy s pid uid := by
  have h1 : (0 < s.likes.countP (likeMatch pid uid)) ↔
      s.likes.any (likeMatch pid uid) = true := by
    rw [List.countP_pos_iff, List.any_eq_true]
  unfold likedFlag isLikedBy
  by_cases h : s.likes.any (likeMatch pid uid) = true
  · rw [h, decide_eq_true (h1.mpr h)]
  · have hf : s.likes.any (likeMatch pid uid) = false := by simpa using h
    rw [hf, decide_eq_false (fun hp => h (h1.mp hp))]

/-- C8 (amended): in the post listing `renderThread` produces, the
`userLiked` key (`is_liked`) is absent — not set to false — on every row
when the viewer is absent/unauthenticated, and equals
`isLikedBy(postId, viewerUserId)` on every row when a viewer is logged
in. -/
theorem userLiked_flag (s : Store) (gid : Nat) (mode : PostSort) :
    (∀ r ∈ game_thread_posts s gid mode none, r.is_liked = none) ∧
    (∀ uid, ∀ r ∈ game_thread_posts s gid mode (some uid),
      r.is_liked = some (isLikedBy s r.id uid)) := by
  constructor
  · intro r hr
    have hr' : r ∈ numberedRows s gid :=
      (sortLe_perm (postLe mode) (numberedRows s gid)).mem_iff.mp hr
    exact numberFrom_is_liked s _ 1 r hr'
  · intro uid r hr
    rcases List.mem_map.mp hr with ⟨r0, _, he⟩
    rw [← he]
    show some (likedFlag s uid r0.id) = some (isLikedBy s r0.id uid)
    rw [likedFlag_eq_isLikedBy]

/-- A store with one user, one thread, one post and one like, used to
evaluate the viewer-flag theorems. -/
def W8 : Store :=
  ⟨[⟨1, "a", "h", 0⟩], [⟨1, ['g'], 1, none, 1⟩], [⟨1, 1, 1, "x", none, 2⟩],
    [⟨1, 1, 1, 3⟩]⟩

/-- The row `game_thread` renders from `W8` for viewer 1. -/
def rw8 : PostRow := ⟨1, "x", 2, 1, none, "a", 1, 1, some true⟩

/-- Closed witness for `userLiked_flag` at `W8`, viewer 1. -/
theorem userLiked_flag_witness : rw8.is_liked = some (isLikedBy W8 rw8.id 1) :=
  (userLiked_flag W8 1 PostSort.new).2 1 rw8 (by decide)

/-- C8 counterexample: rendering the same thread with no viewer, the single
post's summary holds no `userLiked` value at all (`is_liked = none`) —
the claim's "carries a userLiked annotation that is false" fails. -/
theorem userLiked_absent_cex :
    (game_thread_posts W8 1 PostSort.new none).map (fun r => r.is_liked) = [none] ∧
    (none : Option Bool) ≠ some false := ⟨by decide, by decide⟩

/-! ## Deletes redirect instead of raising (C9) -/

/-- C9 (amended): when the target id does not exist, or it exists but the
authenticated caller is not the owning user, `delete_post` and
`delete_thread` change nothing and respond with the index redirect; no
`Forbidden` or `NotFound` error value is produced or distinguished. -/
theorem delete_not_owner_redirects (s : Store) (pid gid uid : Nat) :
    ((∀ p ∈ s.posts, p.id = pid → p.user_id ≠ uid) →
      delete_post s pid (some uid) = (DeleteResponse.redirectIndex, s)) ∧
    ((∀ g ∈ s.games, g.id = gid → g.user_id ≠ uid) →
      delete_thread s gid (some uid) = (DeleteResponse.redirectIndex, s)) := by
  constructor
  · intro h
    cases hfind : s.posts.find? (fun p => decide (p.id = pid)) with
    | none => simp [delete_post, hfind]
    | some p =>
      have hid : p.id = pid := by simpa using List.find?_some hfind
      have hne : p.user_id ≠ uid := h p (List.mem_of_find?_eq_some hfind) hid
      simp [delete_post, hfind, hne]
  · intro h
    cases hfind : s.games.find? (fun g => decide (g.id = gid)) with
    | none => simp [delete_thread, hfind]
    | some g =>
      have hid : g.id = gid := by simpa using List.find?_some hfind
      have hne : g.user_id ≠ uid := h g (List.mem_of_find?_eq_some hfind) hid
      simp [delete_thread, hfind, hne]

/-- A store where user 1 owns thread 1 and post 1; user 2 owns nothing. -/
def S9 : Store :=
  ⟨[⟨1, "a", "h", 0⟩, ⟨2, "b", "h", 0⟩], [⟨1, ['g'], 1, none, 1⟩],
    [⟨1, 1, 1, "x", none, 2⟩], []⟩

/-- Closed witness for `delete_not_owner_redirects`: user 2 asking to
delete user 1's post. -/
theorem delete_not_owner_redirects_witness :
    delete_post S9 1 (some 2) = (DeleteResponse.redirectIndex, S9) :=
  (delete_not_owner_redirects S9 1 1 2).1 (by decide)

/-- C9 counterexample: a non-owner delete and a nonexistent-target delete
both answer `redirectIndex`; neither is the `Forbidden` or `NotFound`
error the claim requires. -/
theorem delete_errors_cex :
    (delete_post S9 1 (some 2)).1 = DeleteResponse.redirectIndex ∧
    (delete_post S9 1 (some 2)).1 ≠ DeleteResponse.forbidden ∧
    (delete_post S9 99 (some 1)).1 = DeleteResponse.redirectIndex ∧
    (delete_post S9 99 (some 1)).1 ≠ DeleteResponse.notFound ∧
    (delete_thread S9 1 (some 2)).1 = DeleteResponse.redirectIndex ∧
    (delete_thread S9 1 (some 2)).1 ≠ DeleteResponse.forbidden ∧
    (delete_thread S9 99 (some 1)).1 = DeleteResponse.redirectIndex ∧
    (delete_thread S9 99 (some 1)).1 ≠ DeleteResponse.notFound := by
  decide

/-! ## Fuzzy search filter (C7) -/

/-- C7: for a non-empty search query, both sort modes of the thread
listing return exactly the upstream-ordered threads whose case-folded
title scores at least 75 against the query under the (spec-modelled)
partial-ratio metric; the result is a subsequence of the upstream sort,
never re-ranked.  Concretely, query "neon" scores ≥ 75 against title
"Neon Dynasty" and "zzz" scores below 75. -/
theorem search_filter_spec (s : Store) (q : List Char) (h : q ≠ []) :
    index_new s q = (listGamesNew s).filter
      (fun g => decide (75 ≤ partial_ratio (lowerStr q) (lowerStr g.title))) ∧
    index_comments s q = (listGamesComments s).filter
      (fun r => decide (75 ≤ partial_ratio (lowerStr q) (lowerStr r.game.title))) ∧
    (index_new s q).Sublist (listGamesNew s) ∧
    (index_comments s q).Sublist (listGamesComments s) ∧
    75 ≤ partial_ratio (lowerStr "neon".toList) (lowerStr "Neon Dynasty".toList) ∧
    partial_ratio (lowerStr "zzz".toList) (lowerStr "Neon Dynasty".toList) < 75 := by
  have h1 : index_new s q = (listGamesNew s).filter (fun g => titleMatches q g.title) := by
    simp [index_new, h]
  have h2 : index_comments s q =
      (listGamesComments s).filter (fun r => titleMatches q r.game.title) := by
    simp [index_comments, h]
  refine ⟨h1, h2, ?_, ?_, by decide, by decide⟩
  · rw [h1]
    exact List.filter_sublist _
  · rw [h2]
    exact List.filter_sublist _

/-- A store with one thread titled "Neon Dynasty". -/
def S7 : Store := ⟨[], [⟨1, "Neon Dynasty".toList, 1, none, 1⟩], [], []⟩

/-- Closed witness for `search_filter_spec` at the query "neon". -/
theorem search_filter_spec_witness :
    index_new S7 "neon".toList = (listGamesNew S7).filter
      (fun g => decide (75 ≤ partial_ratio (lowerStr "neon".toList) (lowerStr g.title))) :=
  (search_filter_spec S7 "neon".toList (by decide)).1

/-! ## Order is left to the store on timestamp ties (C1) -/

/-- An enumeration of a games table whose two rows share `created_at`. -/
def c1A : Store := ⟨[], [⟨1, ['a'], 1, none, 7⟩, ⟨2, ['b'], 1, none, 7⟩], [], []⟩

/-- The same games table enumerated in the other order. -/
def c1B : Store := ⟨[], [⟨2, ['b'], 1, none, 7⟩, ⟨1, ['a'], 1, none, 7⟩], [], []⟩

/-- A posts table for thread 1 whose two rows share `created_at`. -/
def c1P : Store := ⟨[⟨1, "a", "h", 0⟩], [⟨1, ['g'], 1, none, 1⟩],
  [⟨1, 1, 1, "x", none, 5⟩, ⟨2, 1, 1, "y", none, 5⟩], []⟩

/-- The same posts table enumerated in the other order. -/
def c1Q : Store := ⟨[⟨1, "a", "h", 0⟩], [⟨1, ['g'], 1, none, 1⟩],
  [⟨2, 1, 1, "y", none, 5⟩, ⟨1, 1, 1, "x", none, 5⟩], []⟩

/-- C1 (refuted): with two threads sharing a `created_at`, `renderThreadList`
returns different orders over the same set of rows depending on the store's
enumeration — `ORDER BY created_at DESC` has no unique-key tie-break — and
likewise `renderThread`'s post listing, whose order and `ROW_NUMBER`
sequence numbers change with the enumeration of two equal-timestamp
posts. -/
theorem listing_not_deterministic_cex :
    c1A.games.Perm c1B.games ∧
    listGamesNew c1A ≠ listGamesNew c1B ∧
    c1P.posts.Perm c1Q.posts ∧
    game_thread c1P 1 PostSort.new none ≠ game_thread c1Q 1 PostSort.new none := by
  refine ⟨by decide, by decide, by decide, by decide⟩

/-! ## The raced toggle surfaces an error (C2) -/

/-- A store with one user, one thread, one unliked post. -/
def c2S : Store :=
  ⟨[⟨1, "a", "h", 0⟩], [⟨1, ['g'], 1, none, 1⟩], [⟨1, 1, 1, "x", none, 2⟩], []⟩

/-- C2 (refuted): user 1 toggles post 1 with no like present while a
concurrent toggle of the same pair commits first; the duplicate `INSERT`
hits `UNIQUE (post_id, user_id)` and the handler's `except` branch answers
with the "Error processing like" page — the conflict is surfaced to the
caller as an error, not swallowed and resolved as "already liked". -/
theorem race_error_surfaced_cex :
    isLikedBy c2S 1 1 = false ∧
    (like_post c2S 1 (some 1) 9 9 true).1 = LikeResponse.errorPage ∧
    LikeResponse.errorPage ≠ LikeResponse.back := by
  refine ⟨by decide, by decide, by decide⟩

/-! ## Sequence numbers (C3) -/

/-- The sequence number as the SPEC words it (for comparison with the
code): the count of posts in the same thread with `createdAt <=` this
post's, ties among equal timestamps broken by id ascending. -/
def specSequenceNumber (posts : List Post) (p : Post) : Nat :=
  posts.countP (fun q => decide (q.game_id = p.game_id ∧
    (q.created_at < p.created_at ∨ (q.created_at = p.created_at ∧ q.id ≤ p.id))))

/-- A thread whose two posts share `created_at = 5`, the store enumerating
post 2 first. -/
def c3S : Store := ⟨[⟨1, "a", "h", 0⟩], [⟨1, ['g'], 1, none, 1⟩],
  [⟨2, 1, 1, "x", none, 5⟩, ⟨1, 1, 1, "y", none, 5⟩], []⟩

/-- The second post of `c3S` (id 2). -/
def c3p2 : Post := ⟨2, 1, 1, "x", none, 5⟩

/-- C3 (refuted at a timestamp tie): the listing renders post 2 with
`post_number = 1` — `ROW_NUMBER()` ordered only by `created_at` follows
the store's enumeration on ties — while the claim's id-ascending tie-break
formula assigns it sequence number 2. -/
theorem sequence_number_tie_cex :
    (game_thread_posts c3S 1 PostSort.new none).map (fun r => (r.id, r.post_number)) =
      [(2, 1), (1, 2)] ∧
    specSequenceNumber c3S.posts c3p2 = 2 := by
  refine ⟨by decide, by decide⟩

theorem numberFrom_mem_key (s : Store) (l : List (Post × UserRow)) :
    ∀ (n : Nat), ∀ r ∈ numberFrom s n l, ∃ pu ∈ l, r.created_at = pu.1.created_at := by
  induction l with
  | nil =>
    intro n r hr
    simp [numberFrom] at hr
  | cons pu rest ih =>
    intro n r hr
    simp only [numberFrom] at hr
    rcases List.mem_cons.mp hr with h | h
    · exact ⟨pu, List.mem_cons_self _ _, by rw [h]; rfl⟩
    · rcases ih (n + 1) r h with ⟨pu', hpu', he⟩
      exact ⟨pu', List.mem_cons_of_mem _ hpu', he⟩

/-- Rank of a numbered row: over a list sorted by `created_at` with no
duplicate timestamps, the `ROW_NUMBER` assigned from `n` on satisfies
`post_number + 1 = n + #(rows with created_at <= this row's)`. -/
theorem numberFrom_rank (s : Store) (l : List (Post × UserRow)) :
    l.Pairwise (fun a b => a.1.created_at ≤ b.1.created_at) →
    (l.map (fun pu => pu.1.created_at)).Nodup →
    ∀ (n : Nat), ∀ r ∈ numberFrom s n l,
      r.post_number + 1 =
        n + l.countP (fun pu => decide (pu.1.created_at ≤ r.created_at)) := by
  induction l with
  | nil =>
    intro _ _ n r hr
    simp [numberFrom] at hr
  | cons pu rest ih =>
    intro hs hn n r hr
    rcases List.pairwise_cons.mp hs with ⟨hpu, hrest⟩
    rw [List.map_cons] at hn
    have hn2 := List.nodup_cons.mp hn
    simp only [numberFrom] at hr
    rcases List.mem_cons.mp hr with h | h
    · subst h
      have hc0 : rest.countP
          (fun x => decide (x.1.created_at ≤ (mkRow s n pu).created_at)) = 0 := by
        rw [List.countP_eq_zero]
        intro x hx
        have hle := hpu x hx
        have hne : x.1.created_at ≠ pu.1.created_at := by
          intro he
          exact hn2.1 (by rw [← he]; exact List.mem_map_of_mem _ hx)
        have hcr : (mkRow s n pu).created_at = pu.1.created_at := rfl
        rw [hcr]
        simp only [decide_eq_true_eq]
        omega
      rw [List.countP_cons, hc0]
      have hself : (decide (pu.1.created_at ≤ (mkRow s n pu).created_at)) = true := by
        simp [mkRow]
      rw [hself]
      rfl
    · have ihr := ih hrest hn2.2 (n + 1) r h
      rcases numberFrom_mem_key s rest (n + 1) r h with ⟨pu', hpu', he⟩
      have hle : pu.1.created_at ≤ r.created_at := by
        rw [he]
        exact hpu pu' hpu'
      rw [List.countP_cons]
      have hcond : (decide (pu.1.created_at ≤ r.created_at)) = true := by
        simpa using hle
      rw [hcond]
      simp only [if_true]
      omega

theorem filterMap_joinUser_fst (users : List UserRow) (l : List Post) :
    (∀ p ∈ l, (users.find? (fun u => decide (u.id = p.user_id))).isSome = true) →
    (l.filterMap (joinUser users)).map Prod.fst = l := by
  induction l with
  | nil =>
    intro _
    rfl
  | cons p rest ih =>
    intro h
    have hp := h p (List.mem_cons_self _ _)
    rcases Option.isSome_iff_exists.mp hp with ⟨u, hu⟩
    have hj : joinUser users p = some (p, u) := by
      unfold joinUser
      rw [hu]
      rfl
    rw [List.filterMap_cons_some hj, List.map_cons]
    rw [ih (fun q hq => h q (List.mem_cons_of_mem _ hq))]

/-- C3 (amended): whenever the posts of the thread carry pairwise distinct
`created_at` timestamps (so in particular for three posts inserted at
t1 < t2 < t3), every post's rendered `sequenceNumber` equals the count of
the thread's posts with `createdAt <=` its own, in both sort modes and for
any viewer — on equal timestamps the tie goes to the store's enumeration
order, not to ascending ids. -/
theorem sequence_number_rank (s : Store) (gid : Nat) (mode : PostSort)
    (viewer : Option Nat)
    (hdist : ((s.posts.filter (fun p => decide (p.game_id = gid))).map
      (fun p => p.created_at)).Nodup)
    (hfk : ∀ p ∈ s.posts.filter (fun p => decide (p.game_id = gid)),
      (s.users.find? (fun u => decide (u.id = p.user_id))).isSome = true) :
    ∀ r ∈ game_thread_posts s gid mode viewer,
      r.post_number = s.posts.countP
        (fun q => decide (q.game_id = gid ∧ q.created_at ≤ r.created_at)) := by
  intro r hr
  rcases annotRows_fields s viewer _ r hr with ⟨r0, hr0, hid, hca, hlc, hpn⟩
  have hr0' : r0 ∈ numberedRows s gid :=
    ((sortLe_perm (postLe mode) (numberedRows s gid)).mem_iff).mp hr0
  have hLperm : (sortLe chronoLe (gameRows s gid)).Perm (gameRows s gid) :=
    sortLe_perm _ _
  have hsorted : (sortLe chronoLe (gameRows s gid)).Pairwise
      (fun a b => a.1.created_at ≤ b.1.created_at) :=
    (sortLe_pairwise chronoLe chronoLe_total chronoLe_trans _).imp
      (fun h => of_decide_eq_true h)
  have hfst : (gameRows s gid).map Prod.fst =
      s.posts.filter (fun p => decide (p.game_id = gid)) :=
    filterMap_joinUser_fst s.users _ hfk
  have hkeys : ((gameRows s gid).map (fun pu => pu.1.created_at)).Nodup := by
    have hmm : (gameRows s gid).map (fun pu => pu.1.created_at)
        = ((gameRows s gid).map Prod.fst).map (fun p => p.created_at) := by
      rw [List.map_map]
      rfl
    rw [hmm, hfst]
    exact hdist
  have hLkeys : ((sortLe chronoLe (gameRows s gid)).map
      (fun pu => pu.1.created_at)).Nodup :=
    ((hLperm.map (fun pu => pu.1.created_at)).nodup_iff).mpr hkeys
  have hrank := numberFrom_rank s (sortLe chronoLe (gameRows s gid))
    hsorted hLkeys 1 r0 hr0'
  have hcount1 : (sortLe chronoLe (gameRows s gid)).countP
      (fun pu => decide (pu.1.created_at ≤ r0.created_at))
      = (gameRows s gid).countP (fun pu => decide (pu.1.created_at ≤ r0.created_at)) :=
    List.Perm.countP_eq _ hLperm
  have hcount2 : (gameRows s gid).countP
      (fun pu => decide (pu.1.created_at ≤ r0.created_at))
      = (s.posts.filter (fun p => decide (p.game_id = gid))).countP
          (fun p => decide (p.created_at ≤ r0.created_at)) := by
    rw [← hfst, List.countP_map]
    rfl
  have hcount3 : (s.posts.filter (fun p => decide (p.game_id = gid))).countP
      (fun p => decide (p.created_at ≤ r0.created_at)) =
      s.posts.countP (fun q => decide (q.game_id = gid ∧ q.created_at ≤ r0.created_at)) := by
    rw [List.countP_filter]
    refine List.countP_congr ?_
    intro a _
    by_cases h1 : a.game_id = gid <;> by_cases h2 : a.created_at ≤ r0.created_at <;>
      simp [h1, h2]
  rw [hpn, hca]
  omega

/-- A thread with three posts inserted at timestamps 1 < 2 < 3. -/
def W3 : Store := ⟨[⟨1, "a", "h", 0⟩], [⟨1, ['g'], 1, none, 0⟩],
  [⟨1, 1, 1, "x", none, 1⟩, ⟨2, 1, 1, "y", none, 2⟩, ⟨3, 1, 1, "z", none, 3⟩], []⟩

/-- The row `game_thread` renders for the third post of `W3` in `likes`
mode: its `post_number` is 3 even though the display order is reversed. -/
def rw3 : PostRow := ⟨3, "z", 3, 1, none, "a", 0, 3, none⟩

/-- Closed witness for `sequence_number_rank`: the t3 post of `W3`, listed
in `mostLiked` order, has sequence number 3 = the count of posts with
`createdAt <= 3`. -/
theorem sequence_number_rank_witness :
    rw3.post_number = W3.posts.countP
      (fun q => decide (q.game_id = 1 ∧ q.created_at ≤ rw3.created_at)) :=
  sequence_number_rank W3 1 PostSort.likes none (by decide) (by decide) rw3 (by decide)

end Dreamcore
